import Mathlib

/-!
Verification of the AV Brands e-commerce application (Flask/SQLAlchemy).

Shallow embedding of `src/models.py` and the cart/checkout/shop routes of
`src/app.py`.  Monetary values (`Float` columns) are modelled as rationals,
integer columns (`stock`, `quantity`) as integers, and `DateTime` values as
integers under the usual order.  Routes that can abort with a 404
(`get_or_404`) return `Option`.  Python truthiness of `discount_price`
(`if self.discount_price:` is false for both `None` and `0.0`) is modelled
explicitly.
-/

namespace AVBrands

/-- `Product` rows (models.py): the fields relevant to pricing, stock and
catalog filtering. -/
structure Product where
  id : Nat
  price : ℚ
  discount_price : Option ℚ
  stock : ℤ
  is_active : Bool
deriving DecidableEq, Repr

/-- `Product.get_final_price` (models.py lines 106-110):
`if self.discount_price: return self.discount_price; return self.price`.
Python truthiness: a discount price of `None` or `0` falls back to `price`. -/
def Product.get_final_price (p : Product) : ℚ :=
  match p.discount_price with
  | some d => if d = 0 then p.price else d
  | none => p.price

/-- Python `int()` applied to a rational: truncation toward zero. -/
def pyTrunc (q : ℚ) : ℤ :=
  if 0 ≤ q then ⌊q⌋ else ⌈q⌉

/-- `Product.get_discount_percentage` (models.py lines 112-116):
`if self.discount_price: return int(((self.price - self.discount_price) / self.price) * 100); return 0`.
The division is unguarded: when `price = 0` Python raises `ZeroDivisionError`,
modelled here as `none`. -/
def Product.get_discount_percentage (p : Product) : Option ℤ :=
  match p.discount_price with
  | some d =>
      if d = 0 then some 0
      else if p.price = 0 then none
      else some (pyTrunc (((p.price - d) / p.price) * 100))
  | none => some 0

/-- `CartItem` rows (models.py): variant key (user, product, size, color)
plus a quantity and primary key id. -/
structure CartItem where
  id : Nat
  user_id : Nat
  product_id : Nat
  quantity : ℤ
  size : Option String
  color : Option String
deriving DecidableEq, Repr

/-- `CartItem.get_total_price` (models.py lines 138-140):
`self.product.get_final_price() * self.quantity`, resolving the `product`
backref against the product table; `none` if the foreign key dangles. -/
def CartItem.get_total_price (ps : List Product) (c : CartItem) : Option ℚ :=
  (ps.find? (fun p => p.id == c.product_id)).map
    (fun p => p.get_final_price * (c.quantity : ℚ))

/-- `OrderItem` rows (models.py): immutable order line with the price frozen
at order time. -/
structure OrderItem where
  order_id : Nat
  product_id : Nat
  quantity : ℤ
  price : ℚ
  size : Option String
  color : Option String
deriving DecidableEq, Repr

/-- `OrderItem.get_total` (models.py lines 199-201): `self.price * self.quantity`. -/
def OrderItem.get_total (oi : OrderItem) : ℚ :=
  oi.price * (oi.quantity : ℚ)

/-- `Order` rows (models.py): the fields relevant to the claims. -/
structure Order where
  id : Nat
  user_id : Nat
  order_number : String
  total_amount : ℚ
deriving DecidableEq, Repr

/-- `Offer` rows (models.py): activity flag and optional end date. -/
structure Offer where
  id : Nat
  is_active : Bool
  end_date : Option ℤ
deriving DecidableEq, Repr

/-- `Offer.is_valid` (models.py lines 223-230), evaluated at time `now`:
`if not self.is_active: return False; if self.end_date and now > self.end_date: return False; return True`. -/
def Offer.is_valid (o : Offer) (now : ℤ) : Bool :=
  if !o.is_active then false
  else
    match o.end_date with
    | some e => if now > e then false else true
    | none => true

/-- The persisted relational state touched by the cart and checkout routes. -/
structure Store where
  products : List Product
  cart_items : List CartItem
  orders : List Order
  order_items : List OrderItem
  next_cart_id : Nat
  next_order_id : Nat
deriving DecidableEq, Repr

/-- The SQLAlchemy lookup key used by `add_to_cart` (app.py line 327):
`filter_by(user_id=..., product_id=..., size=..., color=...)`. -/
def cartKey (uid pid : Nat) (size color : Option String) (c : CartItem) : Bool :=
  c.user_id == uid && c.product_id == pid && c.size == size && c.color == color

/-- Mutate the first row matched by `key`, adding `qty` to its quantity:
the ORM effect of `existing_item.quantity += quantity` after `.first()`. -/
def incFirstMatching (key : CartItem → Bool) (qty : ℤ) : List CartItem → List CartItem
  | [] => []
  | c :: cs =>
      if key c then { c with quantity := c.quantity + qty } :: cs
      else c :: incFirstMatching key qty cs

/-- `add_to_cart` route (app.py lines 316-338).  404 (`none`) when the
product id does not resolve; otherwise increments the existing entry with the
same (user, product, size, color) key, or inserts a fresh entry with the
requested quantity. -/
def add_to_cart (s : Store) (uid pid : Nat) (qty : ℤ)
    (size color : Option String) : Option Store :=
  match s.products.find? (fun p => p.id == pid) with
  | none => none
  | some _ =>
      match s.cart_items.find? (cartKey uid pid size color) with
      | some _ =>
          some { s with
            cart_items := incFirstMatching (cartKey uid pid size color) qty s.cart_items }
      | none =>
          some { s with
            cart_items := s.cart_items ++ [⟨s.next_cart_id, uid, pid, qty, size, color⟩],
            next_cart_id := s.next_cart_id + 1 }

/-- Set the quantity of the row with primary key `item_id`. -/
def setQtyById (item_id : Nat) (qty : ℤ) (l : List CartItem) : List CartItem :=
  l.map (fun c => if c.id == item_id then { c with quantity := qty } else c)

/-- Delete the row with primary key `item_id`. -/
def removeById (item_id : Nat) (l : List CartItem) : List CartItem :=
  l.filter (fun c => !(c.id == item_id))

/-- `update_cart` route (app.py lines 340-357).  404 (`none`) when the cart
item id does not resolve; a foreign owner gets a flash + redirect with no
mutation; otherwise quantity > 0 sets it and quantity ≤ 0 deletes the row. -/
def update_cart (s : Store) (uid item_id : Nat) (qty : ℤ) : Option Store :=
  match s.cart_items.find? (fun c => c.id == item_id) with
  | none => none
  | some item =>
      if item.user_id ≠ uid then some s
      else if qty > 0 then
        some { s with cart_items := setQtyById item_id qty s.cart_items }
      else
        some { s with cart_items := removeById item_id s.cart_items }

/-- `CartItem.query.filter_by(user_id=current_user.id).all()` (app.py line 416). -/
def userCart (s : Store) (uid : Nat) : List CartItem :=
  s.cart_items.filter (fun c => c.user_id == uid)

/-- `sum(item.get_total_price() for item in cart_items)` (app.py line 433);
`none` if some cart row has a dangling product reference. -/
def cartTotal (ps : List Product) : List CartItem → Option ℚ
  | [] => some 0
  | c :: cs =>
      match c.get_total_price ps, cartTotal ps cs with
      | some t, some rest => some (t + rest)
      | _, _ => none

/-- The stock update of one checkout loop iteration (app.py lines 463-465):
`if item.product.stock >= item.quantity: item.product.stock -= item.quantity`. -/
def reduceStock (pid : Nat) (qty : ℤ) (ps : List Product) : List Product :=
  ps.map (fun p =>
    if p.id == pid then
      if qty ≤ p.stock then { p with stock := p.stock - qty } else p
    else p)

/-- The `for item in cart_items` loop of checkout (app.py lines 452-465):
per cart entry, emit one `OrderItem` priced at the product's current final
price, then conditionally decrement that product's stock. -/
def checkoutLoop (oid : Nat) : List CartItem → List Product →
    Option (List OrderItem × List Product)
  | [], ps => some ([], ps)
  | c :: cs, ps =>
      match ps.find? (fun p => p.id == c.product_id) with
      | none => none
      | some p =>
          match checkoutLoop oid cs (reduceStock c.product_id c.quantity ps) with
          | none => none
          | some (ois, ps2) =>
              some (⟨oid, c.product_id, c.quantity, p.get_final_price, c.size, c.color⟩ :: ois, ps2)

/-- What the `checkout` route does after the cart lookup. -/
inductive CheckoutOutcome where
  /-- Empty cart: flash a warning and redirect to the shop page. -/
  | emptyCartRedirect : CheckoutOutcome
  /-- Order placed: redirect to the confirmation page of the new order. -/
  | orderPlaced : Nat → CheckoutOutcome
deriving DecidableEq, Repr

/-- `checkout` route, successful POST path (app.py lines 411-473): empty cart
redirects to the shop with no mutation; otherwise compute the total from the
cart at current final prices, insert one `Order`, run the order-item/stock
loop, then delete the user's cart rows. -/
def checkout (s : Store) (uid : Nat) (order_number : String) :
    Option (Store × CheckoutOutcome) :=
  let cart := userCart s uid
  if cart.isEmpty then some (s, .emptyCartRedirect)
  else
    match cartTotal s.products cart, checkoutLoop s.next_order_id cart s.products with
    | some total, some (ois, ps2) =>
        some ({ products := ps2,
                cart_items := s.cart_items.filter (fun c => !(c.user_id == uid)),
                orders := s.orders ++ [⟨s.next_order_id, uid, order_number, total⟩],
                order_items := s.order_items ++ ois,
                next_cart_id := s.next_cart_id,
                next_order_id := s.next_order_id + 1 },
              .orderPlaced s.next_order_id)
    | _, _ => none

/-- The price-bound filters of the `shop` route (app.py lines 197-209):
active products; with a `min_price` bound, require a non-null discount price
`≥ min_price`; with a `max_price` bound, require a non-null discount price
`≤ max_price`. -/
def shopPriceFilter (min_price max_price : Option ℚ) (ps : List Product) : List Product :=
  let q1 := ps.filter (fun p => p.is_active)
  let q2 :=
    match min_price with
    | some m => q1.filter (fun p =>
        match p.discount_price with
        | some d => decide (m ≤ d)
        | none => false)
    | none => q1
  match max_price with
  | some m => q2.filter (fun p =>
      match p.discount_price with
      | some d => decide (d ≤ m)
      | none => false)
  | none => q2

/-- The price-relevant part of `admin_edit_product` (app.py lines 729-743):
set the catalog fields of one product; orders and order items are untouched. -/
def admin_edit_product (s : Store) (pid : Nat) (price : ℚ)
    (discount : Option ℚ) (stock : ℤ) (active : Bool) : Store :=
  { s with products := s.products.map (fun p =>
      if p.id == pid then
        { p with price := price, discount_price := discount,
                 stock := stock, is_active := active }
      else p) }

/-- Spec-side definition for the refinement comparison of claim C3, following
the §3 invariant verbatim: final price = discount price if present and lower
than base price, else base price. -/
def specFinalPriceLower (p : Product) : ℚ :=
  match p.discount_price with
  | some d => if d < p.price then d else p.price
  | none => p.price

/-- Total quantity held by the cart rows matched by `key`. -/
def keyQtySum (key : CartItem → Bool) (l : List CartItem) : ℤ :=
  ((l.filter key).map CartItem.quantity).sum

/-- The §2 cart invariant: every persisted cart row has quantity ≥ 1. -/
def cartQuantitiesPositive (s : Store) : Prop :=
  ∀ c ∈ s.cart_items, 1 ≤ c.quantity

end AVBrands

namespace AVBrands

/-- C3 counterexample: the spec's §3 invariant (final price = discount price
if present and lower than base price, else base price) fails on the code:
with base price 100 and discount price 200 the code returns 200, while the
invariant demands 100. -/
theorem C3_counterexample :
    Product.get_final_price ⟨1, 100, some 200, 0, true⟩ = 200 ∧
    specFinalPriceLower ⟨1, 100, some 200, 0, true⟩ = 100 ∧
    (200 : ℚ) ≠ 100 := by
  refine ⟨?_, ?_, by norm_num⟩
  · show (if (200 : ℚ) = 0 then (100 : ℚ) else 200) = 200
    norm_num
  · show (if (200 : ℚ) < 100 then (200 : ℚ) else 100) = 100
    norm_num

/-- C3 (amended): the effective price is the discount price whenever it is
set and nonzero — with no comparison against the base price — and the base
price when the discount price is absent or zero. -/
theorem C3_final_price_truthy (p : Product) :
    (∀ d, p.discount_price = some d → d ≠ 0 → p.get_final_price = d) ∧
    (p.discount_price = some 0 → p.get_final_price = p.price) ∧
    (p.discount_price = none → p.get_final_price = p.price) := by
  refine ⟨fun d hd hne => ?_, fun hd => ?_, fun hd => ?_⟩ <;>
    simp [Product.get_final_price, hd]
  intro h; exact absurd h hne

/-- C3 witness: a product with price 100 and discount price 200 has final
price 200. -/
theorem C3_final_price_truthy_witness :
    Product.get_final_price ⟨2, 100, some 200, 0, true⟩ = 200 :=
  (C3_final_price_truthy ⟨2, 100, some 200, 0, true⟩).1 200 rfl (by norm_num)

/-- C4: with an empty cart, checkout leaves the whole store untouched and
redirects to the shop page (flashing a warning) before any mutation. -/
theorem C4_empty_cart_no_mutation (s : Store) (uid : Nat) (onum : String)
    (h : userCart s uid = []) :
    checkout s uid onum = some (s, CheckoutOutcome.emptyCartRedirect) := by
  unfold checkout
  simp [h]

/-- C4 witness: checkout on a concrete store whose cart is empty. -/
theorem C4_empty_cart_no_mutation_witness :
    userCart ⟨[], [], [], [], 0, 0⟩ 1 = [] ∧
    checkout ⟨[], [], [], [], 0, 0⟩ 1 "AV20250101" =
      some (⟨[], [], [], [], 0, 0⟩, CheckoutOutcome.emptyCartRedirect) :=
  ⟨rfl, C4_empty_cart_no_mutation ⟨[], [], [], [], 0, 0⟩ 1 "AV20250101" rfl⟩

/-- C7: an offer is valid at time `now` iff it is active and its end date is
either null or not earlier than `now`; in particular an active offer with a
past end date is invalid and an active offer with null end date is valid at
every time. -/
theorem C7_offer_validity (o : Offer) (now : ℤ) :
    o.is_valid now = true ↔
      (o.is_active = true ∧ ∀ e, o.end_date = some e → now ≤ e) := by
  rcases o with ⟨oid, act, ed⟩
  cases act <;> cases ed <;> simp [Offer.is_valid]

/-- C10: the discount percentage is 0 when the discount price is unset or
zero; otherwise it is `int(((price - discount_price) / price) * 100)`, which
is defined exactly when `price ≠ 0` (the division is unguarded, so `price = 0`
raises, modelled as `none`). -/
theorem C10_discount_percentage (p : Product) :
    (p.discount_price = none → p.get_discount_percentage = some 0) ∧
    (p.discount_price = some 0 → p.get_discount_percentage = some 0) ∧
    (∀ d, p.discount_price = some d → d ≠ 0 → p.price ≠ 0 →
      p.get_discount_percentage = some (pyTrunc (((p.price - d) / p.price) * 100))) ∧
    (∀ d, p.discount_price = some d → d ≠ 0 → p.price = 0 →
      p.get_discount_percentage = none) := by
  refine ⟨fun h => by simp [Product.get_discount_percentage, h],
          fun h => by simp [Product.get_discount_percentage, h],
          fun d hd hdne hpne => by simp [Product.get_discount_percentage, hd, hdne, hpne],
          fun d hd hdne hp => by simp [Product.get_discount_percentage, hd, hdne, hp]⟩

/-- C10 witness: price 100 with discount price 75 gives 25 percent. -/
theorem C10_discount_percentage_witness :
    Product.get_discount_percentage ⟨1, 100, some 75, 0, true⟩ = some 25 ∧
    (100 : ℚ) ≠ 0 := by
  constructor
  · have h := (C10_discount_percentage ⟨1, 100, some 75, 0, true⟩).2.2.1 75 rfl
      (by norm_num) (by norm_num)
    rw [h]
    norm_num [pyTrunc]
  · norm_num

/-- A product passing a discount-price-shaped filter has a non-null discount
price satisfying the predicate. -/
theorem mem_priceBoundFilter {f : ℚ → Bool} {ps : List Product} {p : Product}
    (hp : p ∈ ps.filter (fun q =>
      match q.discount_price with
      | some d => f d
      | none => false)) :
    p ∈ ps ∧ ∃ d, p.discount_price = some d ∧ f d = true := by
  rw [List.mem_filter] at hp
  obtain ⟨h1, h2⟩ := hp
  refine ⟨h1, ?_⟩
  cases hd : p.discount_price with
  | none => rw [hd] at h2; exact absurd h2 (by simp)
  | some d => rw [hd] at h2; exact ⟨d, rfl, h2⟩

/-- C9: whenever a `min_price` or `max_price` bound is given, every product
returned by the shop price filter has a non-null discount price, and that
discount price respects each given bound. -/
theorem C9_price_filter_excludes_null_discount
    (min_price max_price : Option ℚ) (ps : List Product) (p : Product)
    (hbound : min_price ≠ none ∨ max_price ≠ none)
    (hp : p ∈ shopPriceFilter min_price max_price ps) :
    ∃ d, p.discount_price = some d ∧
      (∀ m, min_price = some m → m ≤ d) ∧
      (∀ m, max_price = some m → d ≤ m) := by
  unfold shopPriceFilter at hp
  rcases min_price with _ | m0 <;> rcases max_price with _ | M
  · simp at hbound
  · obtain ⟨-, d, hd, hdec⟩ := mem_priceBoundFilter hp
    refine ⟨d, hd, ?_, ?_⟩
    · intro m hm
      exact nomatch hm
    · intro m hm
      obtain rfl : M = m := Option.some.inj hm
      exact of_decide_eq_true hdec
  · obtain ⟨-, d, hd, hdec⟩ := mem_priceBoundFilter hp
    refine ⟨d, hd, ?_, ?_⟩
    · intro m hm
      obtain rfl : m0 = m := Option.some.inj hm
      exact of_decide_eq_true hdec
    · intro m hm
      exact nomatch hm
  · obtain ⟨hinner, d, hd, hdecMax⟩ := mem_priceBoundFilter hp
    obtain ⟨-, d2, hd2, hdecMin⟩ := mem_priceBoundFilter hinner
    obtain rfl : d = d2 := Option.some.inj (hd.symm.trans hd2)
    refine ⟨d, hd, fun m hm => ?_, fun m hm => ?_⟩
    · obtain rfl : m0 = m := Option.some.inj hm
      exact of_decide_eq_true hdecMin
    · obtain rfl : M = m := Option.some.inj hm
      exact of_decide_eq_true hdecMax

/-- C9 witness: with a minimum price bound of 40, a product with discount
price 50 is returned and its discount price meets the bound. -/
theorem C9_price_filter_excludes_null_discount_witness :
    (some (40 : ℚ) ≠ (none : Option ℚ) ∨ (none : Option ℚ) ≠ (none : Option ℚ)) ∧
    (⟨1, 100, some 50, 5, true⟩ : Product) ∈
      shopPriceFilter (some 40) none [⟨1, 100, some 50, 5, true⟩] ∧
    ∃ d, (⟨1, 100, some 50, 5, true⟩ : Product).discount_price = some d ∧
      (∀ m, (some (40 : ℚ) : Option ℚ) = some m → m ≤ d) ∧
      (∀ m, (none : Option ℚ) = some m → d ≤ m) :=
  ⟨Or.inl (by simp), by decide,
   C9_price_filter_excludes_null_discount (some 40) none
     [⟨1, 100, some 50, 5, true⟩] ⟨1, 100, some 50, 5, true⟩
     (Or.inl (by simp)) (by decide)⟩

end AVBrands

namespace AVBrands

/-- `incFirstMatching` does not change the number of cart rows. -/
theorem incFirstMatching_length (key : CartItem → Bool) (q : ℤ) (l : List CartItem) :
    (incFirstMatching key q l).length = l.length := by
  induction l with
  | nil => rfl
  | cons c cs ih =>
    simp only [incFirstMatching]
    by_cases h : key c = true
    · rw [if_pos h]
      simp
    · rw [if_neg h]
      simp [ih]

/-- Every row of `incFirstMatching key q l` is a row of `l`, possibly with
`q` added to its quantity. -/
theorem mem_incFirstMatching (key : CartItem → Bool) (q : ℤ) (l : List CartItem)
    (x : CartItem) (hx : x ∈ incFirstMatching key q l) :
    x ∈ l ∨ ∃ c, c ∈ l ∧ x = { c with quantity := c.quantity + q } := by
  induction l with
  | nil => simp [incFirstMatching] at hx
  | cons c0 l0 ih =>
    simp only [incFirstMatching] at hx
    by_cases h0 : key c0 = true
    · rw [if_pos h0] at hx
      rcases List.mem_cons.mp hx with h | h
      · exact Or.inr ⟨c0, List.mem_cons_self _ _, h⟩
      · exact Or.inl (List.mem_cons_of_mem _ h)
    · rw [if_neg h0] at hx
      rcases List.mem_cons.mp hx with h | h
      · exact Or.inl (h ▸ List.mem_cons_self _ _)
      · rcases ih h with h2 | ⟨c, hc, hxc⟩
        · exact Or.inl (List.mem_cons_of_mem _ h2)
        · exact Or.inr ⟨c, List.mem_cons_of_mem _ hc, hxc⟩

/-- The head of a nonempty filter is the first match. -/
theorem find?_of_filter_cons (key : CartItem → Bool) (l : List CartItem)
    (c : CartItem) (cs : List CartItem) (h : l.filter key = c :: cs) :
    l.find? key = some c := by
  induction l generalizing cs with
  | nil => simp at h
  | cons c0 l0 ih =>
    rw [List.filter_cons] at h
    by_cases h0 : key c0 = true
    · rw [if_pos h0] at h
      injection h with h1 h2
      subst h1
      exact List.find?_cons_of_pos _ h0
    · rw [if_neg h0] at h
      rw [List.find?_cons_of_neg _ h0]
      exact ih _ h

/-- Incrementing the first match keeps a singleton match set a singleton,
with the quantity increased. -/
theorem filter_incFirstMatching_singleton (key : CartItem → Bool)
    (hkey : ∀ c q, key { c with quantity := q } = key c)
    (q : ℤ) (l : List CartItem) (c : CartItem)
    (h : l.filter key = [c]) :
    (incFirstMatching key q l).filter key = [{ c with quantity := c.quantity + q }] := by
  induction l with
  | nil => simp at h
  | cons c0 l0 ih =>
    rw [List.filter_cons] at h
    simp only [incFirstMatching]
    by_cases h0 : key c0 = true
    · rw [if_pos h0] at h
      injection h with h1 h2
      subst h1
      rw [if_pos h0, List.filter_cons, hkey, if_pos h0, h2]
    · rw [if_neg h0] at h
      rw [if_neg h0, List.filter_cons, if_neg h0]
      exact ih h

/-- Incrementing the first match adds `q` to the total matched quantity. -/
theorem keyQtySum_incFirstMatching (key : CartItem → Bool)
    (hkey : ∀ c q, key { c with quantity := q } = key c)
    (q : ℤ) (l : List CartItem) (c : CartItem)
    (h : l.find? key = some c) :
    keyQtySum key (incFirstMatching key q l) = keyQtySum key l + q := by
  induction l with
  | nil => simp at h
  | cons c0 l0 ih =>
    by_cases h0 : key c0 = true
    · unfold keyQtySum
      simp only [incFirstMatching, if_pos h0, List.filter_cons, hkey, h0, if_true,
        List.map_cons, List.sum_cons]
      ring
    · rw [List.find?_cons_of_neg _ h0] at h
      unfold keyQtySum
      simp only [incFirstMatching, if_neg h0, List.filter_cons, if_neg h0]
      exact ih h

/-- The cart key ignores the quantity field. -/
theorem cartKey_update_quantity (uid pid : Nat) (size color : Option String)
    (c : CartItem) (q : ℤ) :
    cartKey uid pid size color { c with quantity := q } = cartKey uid pid size color c := rfl

end AVBrands

namespace AVBrands

/-- C5: add-to-cart merges by exact (user, product, size, color) key: an
existing entry is incremented by the requested amount with no new row
created; otherwise one new row with the requested quantity is created; and
two successive adds of the same key with quantity 1 onto a cart without that
key leave exactly one matching row, with quantity 2. -/
theorem C5_add_to_cart_merge (s : Store) (uid pid : Nat) (qty : ℤ)
    (size color : Option String) (prod : Product)
    (hp : s.products.find? (fun p => p.id == pid) = some prod) :
    ((s.cart_items.find? (cartKey uid pid size color)).isSome →
      ∃ s2, add_to_cart s uid pid qty size color = some s2 ∧
        s2.cart_items.length = s.cart_items.length ∧
        keyQtySum (cartKey uid pid size color) s2.cart_items =
          keyQtySum (cartKey uid pid size color) s.cart_items + qty) ∧
    (s.cart_items.find? (cartKey uid pid size color) = none →
      ∃ s2, add_to_cart s uid pid qty size color = some s2 ∧
        s2.cart_items.length = s.cart_items.length + 1 ∧
        s2.cart_items.filter (cartKey uid pid size color) =
          [⟨s.next_cart_id, uid, pid, qty, size, color⟩]) ∧
    (s.cart_items.filter (cartKey uid pid size color) = [] →
      ∃ s2 s3, add_to_cart s uid pid 1 size color = some s2 ∧
        add_to_cart s2 uid pid 1 size color = some s3 ∧
        s3.cart_items.filter (cartKey uid pid size color) =
          [⟨s.next_cart_id, uid, pid, 2, size, color⟩]) := by
  refine ⟨?_, ?_, ?_⟩
  · intro hfind
    obtain ⟨c, hc⟩ := Option.isSome_iff_exists.mp hfind
    refine ⟨{ s with
        cart_items := incFirstMatching (cartKey uid pid size color) qty s.cart_items },
      ?_, ?_, ?_⟩
    · simp only [add_to_cart, hp, hc]
    · exact incFirstMatching_length _ _ _
    · exact keyQtySum_incFirstMatching (cartKey uid pid size color) (fun c q => rfl)
        qty s.cart_items c hc
  · intro hnone
    refine ⟨{ s with
        cart_items := s.cart_items ++ [⟨s.next_cart_id, uid, pid, qty, size, color⟩],
        next_cart_id := s.next_cart_id + 1 }, ?_, ?_, ?_⟩
    · simp only [add_to_cart, hp, hnone]
    · simp
    · have hnil : s.cart_items.filter (cartKey uid pid size color) = [] := by
        rw [List.filter_eq_nil_iff]
        intro a ha
        exact List.find?_eq_none.mp hnone a ha
      show (s.cart_items ++ ([⟨s.next_cart_id, uid, pid, qty, size, color⟩] : List CartItem)).filter
          (cartKey uid pid size color) = _
      rw [List.filter_append, hnil]
      simp [cartKey]
  · intro hfilter
    have hnone : s.cart_items.find? (cartKey uid pid size color) = none := by
      rw [List.find?_eq_none]
      intro a ha
      exact List.filter_eq_nil_iff.mp hfilter a ha
    have hfe : (s.cart_items ++ ([⟨s.next_cart_id, uid, pid, 1, size, color⟩] : List CartItem)).filter
        (cartKey uid pid size color) = [⟨s.next_cart_id, uid, pid, 1, size, color⟩] := by
      rw [List.filter_append, List.filter_eq_nil_iff.mpr (fun a ha => List.find?_eq_none.mp hnone a ha)]
      simp [cartKey]
    have hfind2 : (s.cart_items ++ ([⟨s.next_cart_id, uid, pid, 1, size, color⟩] : List CartItem)).find?
        (cartKey uid pid size color) = some ⟨s.next_cart_id, uid, pid, 1, size, color⟩ :=
      find?_of_filter_cons _ _ _ _ hfe
    refine ⟨{ s with
        cart_items := s.cart_items ++ [⟨s.next_cart_id, uid, pid, 1, size, color⟩],
        next_cart_id := s.next_cart_id + 1 },
      { s with
        cart_items := incFirstMatching (cartKey uid pid size color) 1
          (s.cart_items ++ [⟨s.next_cart_id, uid, pid, 1, size, color⟩]),
        next_cart_id := s.next_cart_id + 1 }, ?_, ?_, ?_⟩
    · simp only [add_to_cart, hp, hnone]
    · simp only [add_to_cart, hp, hfind2]
    · have hsing := filter_incFirstMatching_singleton (cartKey uid pid size color)
        (fun c q => rfl) 1 _ _ hfe
      show (incFirstMatching (cartKey uid pid size color) 1
          (s.cart_items ++ ([⟨s.next_cart_id, uid, pid, 1, size, color⟩] : List CartItem))).filter
          (cartKey uid pid size color) = _
      rw [hsing]
      norm_num

/-- C5 witness: two quantity-1 adds of the same variant key onto an empty
cart end with exactly one matching row of quantity 2. -/
theorem C5_add_to_cart_merge_witness :
    ∃ s2 s3,
      add_to_cart ⟨[⟨1, 100, none, 5, true⟩], [], [], [], 0, 0⟩ 1 1 1 none none = some s2 ∧
      add_to_cart s2 1 1 1 none none = some s3 ∧
      s3.cart_items.filter (cartKey 1 1 none none) = [⟨0, 1, 1, 2, none, none⟩] :=
  (C5_add_to_cart_merge ⟨[⟨1, 100, none, 5, true⟩], [], [], [], 0, 0⟩ 1 1 1 none none
      ⟨1, 100, none, 5, true⟩ rfl).2.2 rfl

end AVBrands

namespace AVBrands

/-- C6: update-cart sets the quantity of the addressed row when the request
is positive, deletes the row when it is ≤ 0, and is a silent no-op (redirect
with no mutation) when the requester does not own the row. -/
theorem C6_update_cart_behavior (s : Store) (uid item_id : Nat) (qty : ℤ)
    (item : CartItem)
    (hfind : s.cart_items.find? (fun c => c.id == item_id) = some item) :
    (item.user_id ≠ uid → update_cart s uid item_id qty = some s) ∧
    (item.user_id = uid → 0 < qty →
      ∃ s2, update_cart s uid item_id qty = some s2 ∧
        s2.cart_items.length = s.cart_items.length ∧
        (∀ c ∈ s2.cart_items, c.id = item_id → c.quantity = qty) ∧
        (∀ c ∈ s.cart_items, c.id ≠ item_id → c ∈ s2.cart_items)) ∧
    (item.user_id = uid → qty ≤ 0 →
      ∃ s2, update_cart s uid item_id qty = some s2 ∧
        (∀ c ∈ s2.cart_items, c.id ≠ item_id) ∧
        (∀ c ∈ s.cart_items, c.id ≠ item_id → c ∈ s2.cart_items)) := by
  refine ⟨?_, ?_, ?_⟩
  · intro hne
    simp only [update_cart, hfind]
    rw [if_pos hne]
  · intro howner hqty
    refine ⟨{ s with cart_items := setQtyById item_id qty s.cart_items }, ?_, ?_, ?_, ?_⟩
    · simp only [update_cart, hfind]
      rw [if_neg (not_not_intro howner), if_pos hqty]
    · simp [setQtyById]
    · intro c hc hcid
      simp only [setQtyById, List.mem_map] at hc
      obtain ⟨c0, hc0, rfl⟩ := hc
      by_cases h0 : (c0.id == item_id) = true
      · simp [h0]
      · rw [if_neg h0] at hcid ⊢
        exact absurd (by simp [hcid]) h0
    · intro c hc hne2
      have h0 : (c.id == item_id) = false := beq_eq_false_iff_ne.mpr hne2
      simp only [setQtyById]
      exact List.mem_map.mpr ⟨c, hc, by rw [if_neg (by simp [h0])]⟩
  · intro howner hqty
    refine ⟨{ s with cart_items := removeById item_id s.cart_items }, ?_, ?_, ?_⟩
    · simp only [update_cart, hfind]
      rw [if_neg (not_not_intro howner), if_neg (by omega)]
    · intro c hc
      simp only [removeById, List.mem_filter] at hc
      simpa using hc.2
    · intro c hc hne2
      simp only [removeById, List.mem_filter]
      exact ⟨hc, by simpa using hne2⟩

/-- C6 witness: a requester who does not own the cart row gets a silent
no-op: the store is returned unchanged. -/
theorem C6_update_cart_behavior_witness :
    (1 : Nat) ≠ 2 ∧
    update_cart ⟨[], [⟨1, 1, 1, 2, none, none⟩], [], [], 2, 1⟩ 2 1 5 =
      some ⟨[], [⟨1, 1, 1, 2, none, none⟩], [], [], 2, 1⟩ :=
  ⟨by norm_num,
   (C6_update_cart_behavior ⟨[], [⟨1, 1, 1, 2, none, none⟩], [], [], 2, 1⟩ 2 1 5
      ⟨1, 1, 1, 2, none, none⟩ rfl).1 (by norm_num)⟩

/-- C8 counterexample: add-to-cart does not validate the requested quantity,
so a POST with quantity 0 persists a cart row with quantity 0, breaking the
claimed invariant that every persisted cart entry has quantity ≥ 1. -/
theorem C8_counterexample :
    (add_to_cart ⟨[⟨1, 100, none, 5, true⟩], [], [], [], 0, 0⟩ 1 1 0 none none).map
        (fun s2 => s2.cart_items.map CartItem.quantity) = some [0] ∧
    ¬ (1 : ℤ) ≤ 0 :=
  ⟨rfl, by norm_num⟩

/-- C8 (amended): add-to-cart with a requested quantity ≥ 1, and update-cart
with any requested quantity, preserve the invariant that every persisted
cart row has quantity ≥ 1. -/
theorem C8_cart_quantity_invariant (s : Store) (uid pid item_id : Nat) (qty : ℤ)
    (size color : Option String) (hinv : cartQuantitiesPositive s) :
    (∀ s2, 1 ≤ qty → add_to_cart s uid pid qty size color = some s2 →
      cartQuantitiesPositive s2) ∧
    (∀ s2, update_cart s uid item_id qty = some s2 → cartQuantitiesPositive s2) := by
  constructor
  · intro s2 hqty hadd
    simp only [add_to_cart] at hadd
    cases hp : s.products.find? (fun p => p.id == pid) with
    | none => rw [hp] at hadd; simp at hadd
    | some p =>
      rw [hp] at hadd
      cases hc : s.cart_items.find? (cartKey uid pid size color) with
      | some c =>
        rw [hc] at hadd
        dsimp only at hadd
        injection hadd with h2
        subst h2
        intro x hx
        rcases mem_incFirstMatching _ _ _ x hx with h | ⟨c0, hc0, rfl⟩
        · exact hinv x h
        · have := hinv c0 hc0
          show 1 ≤ c0.quantity + qty
          omega
      | none =>
        rw [hc] at hadd
        dsimp only at hadd
        injection hadd with h2
        subst h2
        intro x hx
        rcases List.mem_append.mp hx with h | h
        · exact hinv x h
        · have hx2 : x = (⟨s.next_cart_id, uid, pid, qty, size, color⟩ : CartItem) := by
            simpa using h
          rw [hx2]
          exact hqty
  · intro s2 hupd
    simp only [update_cart] at hupd
    cases hf : s.cart_items.find? (fun c => c.id == item_id) with
    | none => rw [hf] at hupd; simp at hupd
    | some item =>
      rw [hf] at hupd
      dsimp only at hupd
      by_cases howner : item.user_id ≠ uid
      · rw [if_pos howner] at hupd
        injection hupd with h2
        subst h2
        exact hinv
      · rw [if_neg howner] at hupd
        by_cases hq : qty > 0
        · rw [if_pos hq] at hupd
          injection hupd with h2
          subst h2
          intro x hx
          simp only [setQtyById, List.mem_map] at hx
          obtain ⟨c0, hc0, rfl⟩ := hx
          by_cases h0 : (c0.id == item_id) = true
          · rw [if_pos h0]
            show 1 ≤ qty
            omega
          · rw [if_neg h0]
            exact hinv c0 hc0
        · rw [if_neg hq] at hupd
          injection hupd with h2
          subst h2
          intro x hx
          simp only [removeById, List.mem_filter] at hx
          exact hinv x hx.1

/-- C8 witness: adding quantity 1 to an empty cart yields a store whose cart
rows all have quantity ≥ 1. -/
theorem C8_cart_quantity_invariant_witness :
    cartQuantitiesPositive ⟨[⟨1, 100, none, 5, true⟩], [⟨0, 1, 1, 1, none, none⟩], [], [], 1, 0⟩ :=
  (C8_cart_quantity_invariant ⟨[⟨1, 100, none, 5, true⟩], [], [], [], 0, 0⟩ 1 1 0 1 none none
      (fun c hc => absurd hc (by simp))).1
    ⟨[⟨1, 100, none, 5, true⟩], [⟨0, 1, 1, 1, none, none⟩], [], [], 1, 0⟩
    (by norm_num) rfl

end AVBrands

namespace AVBrands

/-- `find?` commutes with a map that preserves the predicate. -/
theorem find?_map_of_pred (f : Product → Product) (pred : Product → Bool)
    (hf : ∀ x, pred (f x) = pred x) (l : List Product) :
    (l.map f).find? pred = (l.find? pred).map f := by
  induction l with
  | nil => rfl
  | cons x xs ih =>
    by_cases hx : pred x = true
    · rw [List.map_cons, List.find?_cons_of_pos, List.find?_cons_of_pos _ hx]
      · rfl
      · rw [hf]
        exact hx
    · rw [List.map_cons, List.find?_cons_of_neg, List.find?_cons_of_neg _ hx]
      · exact ih
      · rw [hf]
        exact hx

/-- Looking a product up after one stock reduction gives the looked-up
product with the same conditional stock update applied. -/
theorem find?_reduceStock (pid2 : Nat) (q : ℤ) (ps : List Product) (pid : Nat) :
    (reduceStock pid2 q ps).find? (fun p => p.id == pid) =
      (ps.find? (fun p => p.id == pid)).map (fun p =>
        if p.id == pid2 then
          if q ≤ p.stock then { p with stock := p.stock - q } else p
        else p) := by
  unfold reduceStock
  apply find?_map_of_pred
  intro x
  by_cases h1 : (x.id == pid2) = true <;> by_cases h2 : q ≤ x.stock <;> simp [h1, h2]

/-- Stock reductions do not change any cart row's total price. -/
theorem get_total_price_reduceStock (pid : Nat) (q : ℤ) (ps : List Product)
    (c : CartItem) :
    c.get_total_price (reduceStock pid q ps) = c.get_total_price ps := by
  unfold CartItem.get_total_price
  rw [find?_reduceStock]
  cases hf : ps.find? (fun p => p.id == c.product_id) with
  | none => rfl
  | some p =>
    rw [Option.map_some', Option.map_some', Option.map_some']
    have hfp2 : Product.get_final_price
        (if (p.id == pid) = true then
          (if q ≤ p.stock then { p with stock := p.stock - q } else p)
        else p) = Product.get_final_price p := by
      by_cases h1 : (p.id == pid) = true
      · rw [if_pos h1]
        by_cases h2 : q ≤ p.stock
        · rw [if_pos h2]
          rfl
        · rw [if_neg h2]
      · rw [if_neg h1]
    rw [hfp2]

/-- Stock reductions do not change the cart total. -/
theorem cartTotal_reduceStock (pid : Nat) (q : ℤ) (ps : List Product)
    (cs : List CartItem) :
    cartTotal (reduceStock pid q ps) cs = cartTotal ps cs := by
  induction cs with
  | nil => rfl
  | cons c rest ih =>
    simp only [cartTotal, get_total_price_reduceStock, ih]

/-- The checkout loop emits exactly one order item per cart entry, in order,
copying product, quantity, size and color, and stamps every item with the
new order's id. -/
theorem checkoutLoop_items (oid : Nat) (cs : List CartItem) (ps : List Product)
    (ois : List OrderItem) (ps2 : List Product)
    (h : checkoutLoop oid cs ps = some (ois, ps2)) :
    ois.map (fun oi => (oi.product_id, oi.quantity, oi.size, oi.color)) =
      cs.map (fun c => (c.product_id, c.quantity, c.size, c.color)) ∧
    ∀ oi ∈ ois, oi.order_id = oid := by
  induction cs generalizing ps ois ps2 with
  | nil =>
    simp only [checkoutLoop, Option.some.injEq, Prod.mk.injEq] at h
    obtain ⟨h1, h2⟩ := h
    subst h1
    simp
  | cons c rest ih =>
    simp only [checkoutLoop] at h
    cases hfp : ps.find? (fun p => p.id == c.product_id) with
    | none => rw [hfp] at h; simp at h
    | some p =>
      rw [hfp] at h
      cases hrec : checkoutLoop oid rest (reduceStock c.product_id c.quantity ps) with
      | none => rw [hrec] at h; simp at h
      | some pr =>
        obtain ⟨ois2, ps3⟩ := pr
        rw [hrec] at h
        simp only [Option.some.injEq, Prod.mk.injEq] at h
        obtain ⟨h1, h2⟩ := h
        subst h1
        obtain ⟨ih1, ih2⟩ := ih _ _ _ hrec
        constructor
        · simp only [List.map_cons, ih1]
        · intro oi hoi
          rcases List.mem_cons.mp hoi with h | h
          · rw [h]
          · exact ih2 oi h

/-- The order items created by the checkout loop sum to the cart total
computed before the loop. -/
theorem checkoutLoop_total (oid : Nat) (cs : List CartItem) (ps : List Product)
    (ois : List OrderItem) (ps2 : List Product) (t : ℚ)
    (hloop : checkoutLoop oid cs ps = some (ois, ps2))
    (htot : cartTotal ps cs = some t) :
    (ois.map OrderItem.get_total).sum = t := by
  induction cs generalizing ps ois ps2 t with
  | nil =>
    simp only [checkoutLoop, Option.some.injEq, Prod.mk.injEq] at hloop
    obtain ⟨h1, h2⟩ := hloop
    subst h1
    simp only [cartTotal, Option.some.injEq] at htot
    simpa using htot
  | cons c rest ih =>
    simp only [checkoutLoop] at hloop
    cases hfp : ps.find? (fun p => p.id == c.product_id) with
    | none => rw [hfp] at hloop; simp at hloop
    | some p =>
      rw [hfp] at hloop
      cases hrec : checkoutLoop oid rest (reduceStock c.product_id c.quantity ps) with
      | none => rw [hrec] at hloop; simp at hloop
      | some pr =>
        obtain ⟨ois2, ps3⟩ := pr
        rw [hrec] at hloop
        simp only [Option.some.injEq, Prod.mk.injEq] at hloop
        obtain ⟨h1, h2⟩ := hloop
        subst h1
        simp only [cartTotal] at htot
        cases hg : c.get_total_price ps with
        | none => rw [hg] at htot; simp at htot
        | some tc =>
          rw [hg] at htot
          cases hr : cartTotal ps rest with
          | none => rw [hr] at htot; simp at htot
          | some tr =>
            rw [hr] at htot
            simp only [Option.some.injEq] at htot
            have hrec2 : cartTotal (reduceStock c.product_id c.quantity ps) rest = some tr := by
              rw [cartTotal_reduceStock]
              exact hr
            have hsum := ih _ _ _ _ hrec hrec2
            have htc : tc = p.get_final_price * (c.quantity : ℚ) := by
              unfold CartItem.get_total_price at hg
              rw [hfp] at hg
              simpa using hg.symm
            simp only [List.map_cons, List.sum_cons]
            rw [hsum, ← htot, htc]
            rfl

/-- Products referenced by no processed cart entry come out of the checkout
loop untouched. -/
theorem checkoutLoop_find?_untouched (oid : Nat) (cs : List CartItem)
    (ps : List Product) (ois : List OrderItem) (ps2 : List Product) (pid : Nat)
    (hloop : checkoutLoop oid cs ps = some (ois, ps2))
    (hcs : ∀ c ∈ cs, c.product_id ≠ pid) :
    ps2.find? (fun p => p.id == pid) = ps.find? (fun p => p.id == pid) := by
  induction cs generalizing ps ois ps2 with
  | nil =>
    simp only [checkoutLoop, Option.some.injEq, Prod.mk.injEq] at hloop
    obtain ⟨h1, h2⟩ := hloop
    subst h2
    rfl
  | cons c rest ih =>
    simp only [checkoutLoop] at hloop
    cases hfp : ps.find? (fun p => p.id == c.product_id) with
    | none => rw [hfp] at hloop; simp at hloop
    | some p =>
      rw [hfp] at hloop
      cases hrec : checkoutLoop oid rest (reduceStock c.product_id c.quantity ps) with
      | none => rw [hrec] at hloop; simp at hloop
      | some pr =>
        obtain ⟨ois2, ps3⟩ := pr
        rw [hrec] at hloop
        simp only [Option.some.injEq, Prod.mk.injEq] at hloop
        obtain ⟨h1, h2⟩ := hloop
        subst h2
        have hstep : (reduceStock c.product_id c.quantity ps).find? (fun p => p.id == pid) =
            ps.find? (fun p => p.id == pid) := by
          rw [find?_reduceStock]
          cases hfind : ps.find? (fun p => p.id == pid) with
          | none => rfl
          | some p0 =>
            have hp0 : p0.id = pid := by simpa using List.find?_some hfind
            have hff : (p0.id == c.product_id) = false := by
              rw [hp0]
              exact beq_eq_false_iff_ne.mpr (Ne.symm (hcs c (List.mem_cons_self _ _)))
            rw [Option.map_some']
            rw [if_neg (by simp [hff])]
        rw [ih _ _ _ hrec (fun c2 hc2 => hcs c2 (List.mem_cons_of_mem _ hc2))]
        exact hstep

/-- For a product ordered in exactly one cart entry, the checkout loop
applies exactly the conditional stock decrement of that entry. -/
theorem checkoutLoop_stock_single (oid : Nat) (cs : List CartItem)
    (ps : List Product) (ois : List OrderItem) (ps2 : List Product)
    (pid : Nat) (p : Product) (c : CartItem)
    (hloop : checkoutLoop oid cs ps = some (ois, ps2))
    (hfind : ps.find? (fun q => q.id == pid) = some p)
    (hcs : cs.filter (fun c2 => c2.product_id == pid) = [c]) :
    ps2.find? (fun q => q.id == pid) =
      some (if c.quantity ≤ p.stock then { p with stock := p.stock - c.quantity } else p) := by
  induction cs generalizing ps ois ps2 p with
  | nil => simp at hcs
  | cons c0 rest ih =>
    rw [List.filter_cons] at hcs
    simp only [checkoutLoop] at hloop
    cases hfp : ps.find? (fun q => q.id == c0.product_id) with
    | none => rw [hfp] at hloop; simp at hloop
    | some p0 =>
      rw [hfp] at hloop
      cases hrec : checkoutLoop oid rest (reduceStock c0.product_id c0.quantity ps) with
      | none => rw [hrec] at hloop; simp at hloop
      | some pr =>
        obtain ⟨ois2, ps3⟩ := pr
        rw [hrec] at hloop
        simp only [Option.some.injEq, Prod.mk.injEq] at hloop
        obtain ⟨h1, h2⟩ := hloop
        subst h2
        have hpid : p.id = pid := by simpa using List.find?_some hfind
        by_cases h0 : (c0.product_id == pid) = true
        · rw [if_pos h0] at hcs
          injection hcs with hc1 hc2
          subst hc1
          have hceq : c0.product_id = pid := by simpa using h0
          have hstep : (reduceStock c0.product_id c0.quantity ps).find?
              (fun q => q.id == pid) =
              some (if c0.quantity ≤ p.stock then { p with stock := p.stock - c0.quantity } else p) := by
            rw [find?_reduceStock, hfind, Option.map_some']
            rw [if_pos (by rw [hpid, hceq]; simp)]
          have hno : ∀ c2 ∈ rest, c2.product_id ≠ pid := by
            intro c2 hc2m
            have := List.filter_eq_nil_iff.mp hc2 c2 hc2m
            simpa using this
          rw [checkoutLoop_find?_untouched oid rest _ ois2 _ pid hrec hno]
          exact hstep
        · rw [if_neg h0] at hcs
          have hne : c0.product_id ≠ pid := by simpa using h0
          have hstep : (reduceStock c0.product_id c0.quantity ps).find?
              (fun q => q.id == pid) = some p := by
            rw [find?_reduceStock, hfind, Option.map_some']
            have hff : (p.id == c0.product_id) = false := by
              rw [hpid]
              exact beq_eq_false_iff_ne.mpr (Ne.symm hne)
            rw [if_neg (by simp [hff])]
          exact ih _ _ _ _ hrec hstep hcs

end AVBrands

namespace AVBrands

/-- C1 counterexample: with stock 1 and ordered quantity 2, checkout leaves
the stock at 1 (the decrement is skipped entirely), while the claim's
`min(orderedQty, availableStock)` rule demands a decrease by 1, to 0. -/
theorem C1_counterexample :
    (checkout ⟨[⟨1, 100, none, 1, true⟩], [⟨0, 1, 1, 2, none, none⟩], [], [], 1, 0⟩
        1 "AV1").map (fun r => r.1.products.map Product.stock) = some [1] ∧
    (1 : ℤ) ≠ 1 - min 2 1 :=
  ⟨rfl, by decide⟩

/-- C1 (amended): a successful checkout empties the user's cart, appends
exactly one order, appends exactly one order item per prior cart entry
(copying product, quantity, size, color), and for each product ordered in a
single cart entry decrements its stock by the ordered quantity when the
available stock suffices and leaves it unchanged otherwise — the entry is
ordered either way. -/
theorem C1_checkout_postcondition (s s2 : Store) (uid oid : Nat) (onum : String)
    (hne : userCart s uid ≠ [])
    (h : checkout s uid onum = some (s2, CheckoutOutcome.orderPlaced oid)) :
    userCart s2 uid = [] ∧
    (∃ o, s2.orders = s.orders ++ [o] ∧ o.id = oid) ∧
    (∃ ois, s2.order_items = s.order_items ++ ois ∧
      ois.map (fun oi => (oi.product_id, oi.quantity, oi.size, oi.color)) =
        (userCart s uid).map (fun c => (c.product_id, c.quantity, c.size, c.color))) ∧
    (∀ pid p c, s.products.find? (fun q => q.id == pid) = some p →
      (userCart s uid).filter (fun c2 => c2.product_id == pid) = [c] →
      s2.products.find? (fun q => q.id == pid) =
        some (if c.quantity ≤ p.stock then { p with stock := p.stock - c.quantity } else p)) := by
  simp only [checkout] at h
  cases hcart : userCart s uid with
  | nil => exact absurd hcart hne
  | cons c0 rest =>
    rw [hcart] at h
    rw [if_neg (by simp)] at h
    cases htot : cartTotal s.products (c0 :: rest) with
    | none => rw [htot] at h; simp at h
    | some total =>
      rw [htot] at h
      cases hloop : checkoutLoop s.next_order_id (c0 :: rest) s.products with
      | none => rw [hloop] at h; simp at h
      | some pr =>
        obtain ⟨ois, ps3⟩ := pr
        rw [hloop] at h
        simp only [Option.some.injEq, Prod.mk.injEq,
          CheckoutOutcome.orderPlaced.injEq] at h
        obtain ⟨hstore, hoid⟩ := h
        subst hstore
        subst hoid
        refine ⟨?_, ⟨⟨s.next_order_id, uid, onum, total⟩, rfl, rfl⟩,
          ⟨ois, rfl, ?_⟩, ?_⟩
        · apply List.filter_eq_nil_iff.mpr
          intro a ha
          have := (List.mem_filter.mp ha).2
          simpa using this
        · exact (checkoutLoop_items _ _ _ _ _ hloop).1
        · intro pid p c hfind hfilter
          exact checkoutLoop_stock_single _ _ _ _ _ _ _ _ hloop hfind hfilter

/-- C1 witness: a concrete successful checkout (stock 5, quantity 2) leaves
the user's cart empty. -/
theorem C1_checkout_postcondition_witness :
    userCart ⟨[⟨1, 100, none, 5, true⟩], [⟨0, 1, 1, 2, none, none⟩], [], [], 1, 0⟩ 1 ≠ [] ∧
    userCart ⟨[⟨1, 100, none, 3, true⟩], [], [⟨0, 1, "AV20240101", 200⟩],
      [⟨0, 1, 2, 100, none, none⟩], 1, 1⟩ 1 = [] :=
  ⟨by decide,
   (C1_checkout_postcondition
      ⟨[⟨1, 100, none, 5, true⟩], [⟨0, 1, 1, 2, none, none⟩], [], [], 1, 0⟩
      ⟨[⟨1, 100, none, 3, true⟩], [], [⟨0, 1, "AV20240101", 200⟩],
        [⟨0, 1, 2, 100, none, none⟩], 1, 1⟩
      1 0 "AV20240101" (by decide)
      (by norm_num [checkout, userCart, cartTotal, CartItem.get_total_price,
        checkoutLoop, reduceStock, Product.get_final_price, List.find?,
        List.filter, List.isEmpty])).1⟩

/-- C2: the order created by a successful checkout has a total equal to the
sum of its order items' `price * quantity`, with each item price frozen at
checkout time; any later catalog edit leaves the orders and order items —
and hence this equality — untouched. -/
theorem C2_order_total_frozen (s s2 : Store) (uid oid : Nat) (onum : String)
    (hfresh : ∀ oi ∈ s.order_items, oi.order_id ≠ s.next_order_id)
    (h : checkout s uid onum = some (s2, CheckoutOutcome.orderPlaced oid)) :
    ∃ o, s2.orders = s.orders ++ [o] ∧ o.id = oid ∧
      o.total_amount =
        ((s2.order_items.filter (fun oi => oi.order_id == oid)).map
          OrderItem.get_total).sum ∧
      ∀ pid price discount stock active,
        (admin_edit_product s2 pid price discount stock active).orders = s2.orders ∧
        (admin_edit_product s2 pid price discount stock active).order_items =
          s2.order_items := by
  simp only [checkout] at h
  cases hcart : userCart s uid with
  | nil =>
    rw [hcart] at h
    simp only [List.isEmpty_nil, if_true] at h
    simp only [Option.some.injEq, Prod.mk.injEq] at h
    exact CheckoutOutcome.noConfusion h.2
  | cons c0 rest =>
    rw [hcart] at h
    rw [if_neg (by simp)] at h
    cases htot : cartTotal s.products (c0 :: rest) with
    | none => rw [htot] at h; simp at h
    | some total =>
      rw [htot] at h
      cases hloop : checkoutLoop s.next_order_id (c0 :: rest) s.products with
      | none => rw [hloop] at h; simp at h
      | some pr =>
        obtain ⟨ois, ps3⟩ := pr
        rw [hloop] at h
        simp only [Option.some.injEq, Prod.mk.injEq,
          CheckoutOutcome.orderPlaced.injEq] at h
        obtain ⟨hstore, hoid⟩ := h
        subst hstore
        subst hoid
        refine ⟨⟨s.next_order_id, uid, onum, total⟩, rfl, rfl, ?_,
          fun pid price discount stock active => ⟨rfl, rfl⟩⟩
        show total = (((s.order_items ++ ois).filter
          (fun oi => oi.order_id == s.next_order_id)).map OrderItem.get_total).sum
        have hold : s.order_items.filter (fun oi => oi.order_id == s.next_order_id) = [] :=
          List.filter_eq_nil_iff.mpr (fun oi hoi => by simpa using hfresh oi hoi)
        have hnew : ois.filter (fun oi => oi.order_id == s.next_order_id) = ois := by
          rw [List.filter_eq_self]
          intro oi hoi
          have := (checkoutLoop_items _ _ _ _ _ hloop).2 oi hoi
          simp [this]
        rw [List.filter_append, hold, hnew, List.nil_append]
        exact (checkoutLoop_total _ _ _ _ _ total hloop htot).symm

/-- C2 witness: for a concrete checkout, the created order's frozen total
matches the sum over its order items, and a later catalog price edit leaves
orders and order items unchanged. -/
theorem C2_order_total_frozen_witness :
    ∃ o : Order,
      (⟨[⟨1, 100, none, 3, true⟩], [], [⟨0, 1, "AV2", 200⟩],
        [⟨0, 1, 2, 100, none, none⟩], 1, 1⟩ : Store).orders =
        (⟨[⟨1, 100, none, 5, true⟩], [⟨0, 1, 1, 2, none, none⟩], [], [], 1, 0⟩ : Store).orders
          ++ [o] ∧
      o.id = 0 ∧
      o.total_amount =
        (((⟨[⟨1, 100, none, 3, true⟩], [], [⟨0, 1, "AV2", 200⟩],
            [⟨0, 1, 2, 100, none, none⟩], 1, 1⟩ : Store).order_items.filter
          (fun oi => oi.order_id == 0)).map OrderItem.get_total).sum ∧
      ∀ pid price discount stock active,
        (admin_edit_product ⟨[⟨1, 100, none, 3, true⟩], [], [⟨0, 1, "AV2", 200⟩],
            [⟨0, 1, 2, 100, none, none⟩], 1, 1⟩ pid price discount stock active).orders =
          (⟨[⟨1, 100, none, 3, true⟩], [], [⟨0, 1, "AV2", 200⟩],
            [⟨0, 1, 2, 100, none, none⟩], 1, 1⟩ : Store).orders ∧
        (admin_edit_product ⟨[⟨1, 100, none, 3, true⟩], [], [⟨0, 1, "AV2", 200⟩],
            [⟨0, 1, 2, 100, none, none⟩], 1, 1⟩ pid price discount stock active).order_items =
          (⟨[⟨1, 100, none, 3, true⟩], [], [⟨0, 1, "AV2", 200⟩],
            [⟨0, 1, 2, 100, none, none⟩], 1, 1⟩ : Store).order_items :=
  C2_order_total_frozen
    ⟨[⟨1, 100, none, 5, true⟩], [⟨0, 1, 1, 2, none, none⟩], [], [], 1, 0⟩
    ⟨[⟨1, 100, none, 3, true⟩], [], [⟨0, 1, "AV2", 200⟩],
      [⟨0, 1, 2, 100, none, none⟩], 1, 1⟩
    1 0 "AV2" (fun oi hoi => absurd hoi (by simp))
    (by norm_num [checkout, userCart, cartTotal, CartItem.get_total_price,
      checkoutLoop, reduceStock, Product.get_final_price, List.find?,
      List.filter, List.isEmpty])

end AVBrands
